import Mathlib

/-!
Verification of the DocuLens documentation-ingestion pipeline.

Shallow embedding of the Python backend's scraping / ingestion code:
  - app/scrapers/youtube.py   (YouTubeIntegration)
  - app/scrapers/leetcode.py  (LeetCodeScraper)
  - app/scrapers/python_docs.py (PythonDocsScraper)
  - app/scrapers/base.py      (BaseScraper.scrape_all)
  - app/services/ai_services.py (AIService.summarize_documentation)
  - app/services/scraper_service.py (ScraperService)

Strings are modelled over Lean's `String`/`List Char`; the character-level
predicates (`\w`, `\s`, lower-casing) follow Python's ASCII behaviour, so
theorems quantifying over titles are scoped to ASCII inputs where that
matters.  External effects (HTTP, DB sessions, AI providers) are passed in
as explicit values/functions so that each code path is a total function of
its inputs.
-/

namespace DocuLens

/-! ## YouTubeIntegration._parse_duration (app/scrapers/youtube.py)

Python: `re.match(r'PT(?:(\d+)H)?(?:(\d+)M)?(?:(\d+)S)?', s)`; on a match
the three groups (each `int(... or 0)`) combine as h*3600 + m*60 + s; on no
match the result is 0.  `re.match` anchors at the start only, so a match
requires exactly the literal prefix "PT"; each optional group consumes a
maximal digit run only when it is immediately followed by its unit letter
(digit runs cannot backtrack onto the unit letter, so greedy matching
reduces to: take all digits, then require the letter). -/

/-- Longest leading digit run of a char list, as a number, with the rest;
`none` when the list does not start with a digit. -/
def parseDigits : List Char → Option (Nat × List Char)
  | [] => none
  | c :: rest =>
    if c.isDigit then
      match parseDigits rest with
      | some (n, r) =>
        -- fold further digits after the first one
        some ((c.toNat - '0'.toNat) * 10 ^ (rest.length - r.length) + n, r)
      | none => some (c.toNat - '0'.toNat, rest)
    else none

/-- One optional `(?:(\d+)X)?` group: a maximal digit run immediately
followed by the unit char `u` yields its value and the remainder; otherwise
the group is skipped (value 0, input unconsumed). -/
def tryUnit (u : Char) (l : List Char) : Nat × List Char :=
  match parseDigits l with
  | some (n, c :: rest) => if c = u then (n, rest) else (0, l)
  | some (_, []) => (0, l)
  | none => (0, l)

/-- Embedding of `YouTubeIntegration._parse_duration`: ISO-8601-style
"PT..H..M..S" to total seconds; anything not starting with "PT" is a
regex non-match and yields 0. -/
def parse_duration (s : List Char) : Nat :=
  match s with
  | 'P' :: 'T' :: rest =>
    let hm := tryUnit 'H' rest
    let mm := tryUnit 'M' hm.2
    let sm := tryUnit 'S' mm.2
    hm.1 * 3600 + mm.1 * 60 + sm.1
  | _ => 0

end DocuLens

namespace DocuLens

/-! ## LeetCodeScraper (app/scrapers/leetcode.py) -/

/-- Python's `\s` class over ASCII: space, tab, newline, carriage return,
vertical tab, form feed. -/
def pyIsSpace (c : Char) : Bool :=
  c = ' ' || c = '\t' || c = '\n' || c = '\r' || c = '\x0b' || c = '\x0c'

/-- Python `str.strip()` over ASCII text: drop whitespace from both ends. -/
def pyStrip (s : String) : String :=
  String.mk ((s.toList.dropWhile pyIsSpace).rdropWhile pyIsSpace)

/-- Replace every space by a hyphen (Python `str.replace(" ", "-")` for the
single-character pattern used in the source). -/
def replaceSpaceDash (s : String) : String :=
  String.mk (s.toList.map fun c => if c = ' ' then '-' else c)

/-- ASCII lower-casing, matching Python `str.lower` on ASCII text. -/
def pyLower (s : String) : String :=
  String.mk (s.toList.map Char.toLower)

/-- A curated problem entry of `_get_fallback_problems`. -/
structure CuratedProblem where
  pid : String
  title : String
  difficulty : String
deriving DecidableEq

/-- Formatted problem record as produced for storage. -/
structure Problem where
  title : String
  platform : String
  difficulty : String
  problem_url : String
  description : String
  tags : List String
  order_index : Nat
deriving DecidableEq

/-- The hard-coded `curated_problems` table of `_get_fallback_problems`. -/
def curated_problems (key : String) : Option (List CuratedProblem) :=
  if key = "array" then some [
    ⟨"1", "Two Sum", "easy"⟩,
    ⟨"15", "3Sum", "medium"⟩,
    ⟨"53", "Maximum Subarray", "medium"⟩,
    ⟨"121", "Best Time to Buy and Sell Stock", "easy"⟩]
  else if key = "string" then some [
    ⟨"3", "Longest Substring Without Repeating Characters", "medium"⟩,
    ⟨"5", "Longest Palindromic Substring", "medium"⟩,
    ⟨"20", "Valid Parentheses", "easy"⟩]
  else if key = "tree" then some [
    ⟨"94", "Binary Tree Inorder Traversal", "easy"⟩,
    ⟨"102", "Binary Tree Level Order Traversal", "medium"⟩,
    ⟨"104", "Maximum Depth of Binary Tree", "easy"⟩]
  else if key = "dynamic-programming" then some [
    ⟨"70", "Climbing Stairs", "easy"⟩,
    ⟨"198", "House Robber", "medium"⟩,
    ⟨"322", "Coin Change", "medium"⟩]
  else none

def leetcodeBaseUrl : String := "https://leetcode.com"

/-- The curated pool `_get_fallback_problems` selects before truncation:
the table entry for the normalized topic (`topic.lower().replace(" ", "-")`,
defaulting to the "array" list), filtered by difficulty when given. -/
def fallbackPool (topic : String) (difficulty : Option String) :
    List CuratedProblem :=
  let key := replaceSpaceDash (pyLower topic)
  let probs := (curated_problems key).getD
    [⟨"1", "Two Sum", "easy"⟩,
     ⟨"15", "3Sum", "medium"⟩,
     ⟨"53", "Maximum Subarray", "medium"⟩,
     ⟨"121", "Best Time to Buy and Sell Stock", "easy"⟩]
  match difficulty with
  | some d => probs.filter fun p => p.difficulty = pyLower d
  | none => probs

/-- Embedding of `LeetCodeScraper._get_fallback_problems`: pick the curated
list for the normalized topic (defaulting to the "array" list), filter by
difficulty when given, truncate to `limit`, and format. -/
def get_fallback_problems (topic : String) (difficulty : Option String)
    (limit : Nat) : List Problem :=
  ((fallbackPool topic difficulty).take limit).mapIdx fun idx p =>
    { title := p.title
      platform := "leetcode"
      difficulty := p.difficulty
      problem_url :=
        leetcodeBaseUrl ++ "/problems/" ++ replaceSpaceDash (pyLower p.title) ++ "/"
      description := "LeetCode #" ++ p.pid
      tags := [topic]
      order_index := idx }

/-- Raw problem item of the GraphQL response, as read by
`_format_problems`.  The float `acRate` is modelled in tenths of a percent
(only its formatted rendering reaches the output). -/
structure RawProblem where
  title : String
  titleSlug : String
  questionFrontendId : String
  difficulty : String
  topicTags : List String
  acRateTenths : Nat
deriving DecidableEq

/-- Render a tenths-of-a-percent value the way Python's `:.1f` renders the
acceptance-rate float. -/
def fmtTenths (n : Nat) : String :=
  toString (n / 10) ++ "." ++ toString (n % 10)

/-- Embedding of `LeetCodeScraper._format_problems`. -/
def format_problems (problems : List RawProblem) : List Problem :=
  problems.mapIdx fun idx p =>
    { title := p.title
      platform := "leetcode"
      difficulty := pyLower p.difficulty
      problem_url := leetcodeBaseUrl ++ "/problems/" ++ p.titleSlug ++ "/"
      description := "LeetCode #" ++ p.questionFrontendId ++
        " - Acceptance: " ++ fmtTenths p.acRateTenths ++ "%"
      tags := p.topicTags.take 5
      order_index := idx }

/-- Outcome of the one HTTP POST of `search_problems_by_topic`: either an
exception, or a response with a status code and (for status 200) the parsed
question list. -/
inductive ApiOutcome where
  | exn : ApiOutcome
  | resp (status : Nat) (problems : List RawProblem) : ApiOutcome

/-- Embedding of `LeetCodeScraper.search_problems_by_topic`: a non-200
status or any exception falls back to the curated table, a 200 response is
formatted. -/
def search_problems_by_topic (api : ApiOutcome) (topic : String)
    (difficulty : Option String) (limit : Nat) : List Problem :=
  match api with
  | .exn => get_fallback_problems topic difficulty limit
  | .resp status problems =>
    if status ≠ 200 then get_fallback_problems topic difficulty limit
    else format_problems problems

/-! ## YouTubeIntegration.search_videos (app/scrapers/youtube.py)

The two HTTP calls (search, per-id details) are passed in as explicit
outcomes: `Except Unit _` is an exception (`.error`) or a successfully
parsed JSON payload (`.ok`).  `raise_for_status` on a non-2xx response is
one of the exceptions covered by `.error`. -/

/-- One item of the search response (`item["id"]["videoId"]`,
`item["snippet"]`). -/
structure SearchItem where
  videoId : String
  title : String
  channelTitle : String
  thumbnailUrl : Option String
deriving DecidableEq

/-- One item of the details response, keyed by video id:
`contentDetails.duration` and `statistics.viewCount`. -/
structure VideoDetail where
  duration : Option String
  viewCount : Option Nat
deriving DecidableEq

/-- Formatted video record as produced for storage. -/
structure Video where
  title : String
  video_url : String
  platform : String
  channel_name : String
  thumbnail_url : Option String
  duration_seconds : Option Nat
  views : Option Nat
deriving DecidableEq

/-- Embedding of `YouTubeIntegration._get_video_details`: on any exception
in the HTTP call the lookup dict is empty. -/
def get_video_details (detailsApi : Except Unit (List (String × VideoDetail))) :
    List (String × VideoDetail) :=
  match detailsApi with
  | .ok items => items
  | .error _ => []

/-- Association-list lookup standing for `details.get(video_id, {})`. -/
def lookupDetail (details : List (String × VideoDetail)) (vid : String) :
    Option VideoDetail :=
  (details.find? fun kv => kv.1 = vid).map fun kv => kv.2

/-- Embedding of `YouTubeIntegration._format_videos`. -/
def format_videos (searchItems : List SearchItem)
    (details : List (String × VideoDetail)) : List Video :=
  searchItems.map fun item =>
    let detail := lookupDetail details item.videoId
    { title := item.title
      video_url := "https://www.youtube.com/watch?v=" ++ item.videoId
      platform := "youtube"
      channel_name := item.channelTitle
      thumbnail_url := item.thumbnailUrl
      duration_seconds := detail.bind fun d => d.duration.map fun s => parse_duration s.toList
      views := detail.bind fun d => d.viewCount }

/-- Embedding of `YouTubeIntegration.search_videos`: no configured API key
returns `[]` at once; any exception in the search call (HTTP error or
parse failure) yields `[]`; detail-lookup exceptions are absorbed inside
`get_video_details` and leave an empty lookup dict. -/
def search_videos (apiKey : Option String)
    (searchApi : Except Unit (List SearchItem))
    (detailsApi : Except Unit (List (String × VideoDetail))) : List Video :=
  match apiKey with
  | none => []
  | some _ =>
    match searchApi with
    | .error _ => []
    | .ok items =>
      let videoIds := items.map fun item => item.videoId
      if videoIds.isEmpty then []
      else format_videos items (get_video_details detailsApi)

/-! ## AIService.summarize_documentation (app/services/ai_services.py)

Each provider client is modelled as `Option (String → Except Unit String)`:
`none` when the client is not configured, otherwise a function from the
user prompt to a returned summary (`.ok`) or a raised exception
(`.error`).  The two error classes `BadRequestException` and
`ServiceUnavailableException` become the two constructors of `AIError`. -/

inductive AIError where
  | badRequest : AIError
  | serviceUnavailable : AIError
deriving DecidableEq

/-- Embedding of `AIService._build_summary_prompt`. -/
def build_summary_prompt (style : String) (languageContext : Option String) :
    String :=
  let base := "You are a technical documentation summarizer. "
  let base := match languageContext with
    | some ctx => base ++ "You specialize in " ++ ctx ++ " documentation. "
    | none => base
  let base :=
    if style = "concise" then
      base ++ "Create brief, clear summaries focusing on core concepts. "
    else if style = "detailed" then
      base ++ "Create comprehensive summaries preserving technical details. "
    else if style = "bullet_points" then
      base ++ "Create summaries as bullet points highlighting key points. "
    else base
  base ++ "Maintain accuracy and technical precision."

/-- Embedding of the user-prompt construction inside
`summarize_documentation`. -/
def build_user_prompt (maxLength : Nat) (content : String) : String :=
  "Summarize the following documentation (max " ++ toString maxLength ++
  " words):\n\n" ++ content ++
  "\n\nProvide a clear, accurate summary that preserves key technical details."

/-- Embedding of `AIService.summarize_documentation`.  Returns the result
together with the list of providers that were attempted (a provider is
attempted when its client exists and is called).  Content below the
50-char minimum (after `strip`) raises `BadRequestException` before any
provider is consulted; content above 50000 chars is truncated with an
ellipsis; the primary (groq) is tried first, the secondary (claude) only
after a primary exception; with no provider left,
`ServiceUnavailableException` is raised. -/
def summarize_documentation (groq claude : Option (String → Except Unit String))
    (content : String) (maxLength : Nat) (style : String)
    (languageContext : Option String) : Except AIError String × List String :=
  if content = "" || (pyStrip content).length < 50 then (.error .badRequest, [])
  else
    let content :=
      if content.length > 50000 then content.take 50000 ++ "..." else content
    let _sysPrompt := build_summary_prompt style languageContext
    let userPrompt := build_user_prompt maxLength content
    match groq with
    | some f =>
      match f userPrompt with
      | .ok s => (.ok s, ["groq"])
      | .error _ =>
        match claude with
        | some g =>
          match g userPrompt with
          | .ok s => (.ok s, ["groq", "claude"])
          | .error _ => (.error .serviceUnavailable, ["groq", "claude"])
        | none => (.error .serviceUnavailable, ["groq"])
    | none =>
      match claude with
      | some g =>
        match g userPrompt with
        | .ok s => (.ok s, ["claude"])
        | .error _ => (.error .serviceUnavailable, ["claude"])
      | none => (.error .serviceUnavailable, [])

/-! ## PythonDocsScraper (app/scrapers/python_docs.py) -/

/-- Python's `\w` class over ASCII: alphanumeric or underscore. -/
def isWordChar (c : Char) : Bool :=
  c.isAlphanum || c = '_'

/-- A char surviving `re.sub(r'[^\w\s-]', '', slug)`: word char, whitespace
or hyphen. -/
def keepChar (c : Char) : Bool :=
  isWordChar c || pyIsSpace c || c = '-'

/-- One pass of `re.sub(r'[\s_]+', '-', slug)`: every maximal run of
whitespace/underscore chars becomes a single hyphen.  The flag records
whether the previous char belonged to such a run. -/
def collapseWs : List Char → Bool → List Char
  | [], _ => []
  | c :: rest, prev =>
    if pyIsSpace c || c = '_' then
      if prev then collapseWs rest true else '-' :: collapseWs rest true
    else c :: collapseWs rest false

/-- Python `str.strip('-')`: drop hyphens from both ends. -/
def stripDashes (l : List Char) : List Char :=
  (l.dropWhile fun c => c = '-').rdropWhile fun c => c = '-'

/-- Embedding of `PythonDocsScraper._generate_slug` over char lists:
lower-case, drop chars outside `[\w\s-]`, collapse `[\s_]+` runs to a
hyphen, strip leading/trailing hyphens, THEN truncate to 50 chars (the
source truncates after stripping, so truncation can re-expose a trailing
hyphen). -/
def generateSlugList (title : List Char) : List Char :=
  (stripDashes (collapseWs ((title.map Char.toLower).filter keepChar) false)).take 50

/-- String-level wrapper of `_generate_slug`. -/
def generate_slug (title : String) : String :=
  String.mk (generateSlugList title.toList)

/-- Python `str.split()` (whitespace split, empties dropped), over char
lists; the accumulator holds the current in-progress word reversed. -/
def pyWordsAux : List Char → List Char → List (List Char)
  | acc, [] => if acc.isEmpty then [] else [acc.reverse]
  | acc, c :: rest =>
    if pyIsSpace c then
      if acc.isEmpty then pyWordsAux [] rest else acc.reverse :: pyWordsAux [] rest
    else pyWordsAux (c :: acc) rest

/-- Python `s.split()` as a list of words. -/
def pyWords (s : String) : List String :=
  (pyWordsAux [] s.toList).map String.mk

/-- Python `sep.join(parts)`. -/
def joinWith (sep : String) : List String → String
  | [] => ""
  | [x] => x
  | x :: y :: rest => x ++ sep ++ joinWith sep (y :: rest)

/-- Embedding of `BaseScraper.clean_text`:
`" ".join(text.split())` followed by `strip()` (a no-op after the join). -/
def clean_text (s : String) : String :=
  pyStrip (joinWith " " (pyWords s))

/-- Boolean substring test (Python `sub in s`). -/
def infixCheck (pat : List Char) : List Char → Bool
  | [] => pat.isPrefixOf []
  | c :: rest => pat.isPrefixOf (c :: rest) || infixCheck pat rest

/-- String-level substring test. -/
def strContains (s sub : String) : Bool :=
  infixCheck sub.toList s.toList

/-- Python `str.startswith` (reducible list version). -/
def pyStartsWith (s pre : String) : Bool :=
  pre.toList.isPrefixOf s.toList

/-- Python `str.endswith` (reducible list version). -/
def pyEndsWith (s post : String) : Bool :=
  post.toList.isSuffixOf s.toList

/-- Advanced-topic keyword vocabulary of `_estimate_difficulty`. -/
def hardKeywords : List String :=
  ["advanced", "decorator", "metaclass", "async", "threading",
   "generator", "iterator", "context manager"]

/-- Intermediate-topic keyword vocabulary of `_estimate_difficulty`. -/
def mediumKeywords : List String :=
  ["class", "module", "exception", "file", "package",
   "inheritance", "comprehension"]

/-- Embedding of `PythonDocsScraper._estimate_difficulty`. -/
def estimate_difficulty (order : Nat) (title : String) : String :=
  let t := pyLower title
  if hardKeywords.any fun w => strContains t w then "hard"
  else if mediumKeywords.any fun w => strContains t w then "medium"
  else if order ≤ 5 then "easy"
  else "medium"

/-- Split a char list on a character (Python `str.split('/')`; empties are
kept, the result is always non-empty). -/
def splitOnChar (sep : Char) : List Char → List (List Char)
  | [] => [[]]
  | c :: rest =>
    match splitOnChar sep rest with
    | [] => [[]]
    | w :: ws => if c = sep then [] :: w :: ws else (c :: w) :: ws

/-- Resolution of `.` and `..` path segments as in `urllib.parse.urljoin`
(a `..` pops the accumulated path, popping an empty accumulator is a
no-op). -/
def resolveSegs : List String → List String → List String
  | acc, [] => acc
  | acc, s :: rest =>
    if s = ".." then resolveSegs acc.dropLast rest
    else if s = "." then resolveSegs acc rest
    else resolveSegs (acc ++ [s]) rest

/-- Embedding of `BaseScraper.make_absolute_url` specialized to this
scraper's fixed base URL "https://docs.python.org/3/tutorial/" (set in
`PythonDocsScraper.__init__`).  Models `urllib.parse.urljoin` for relative
references: merge the href onto the base directory ["", "3", "tutorial"]
(an href starting with "/" replaces the whole path), resolve `.`/`..`
segments, re-append an empty segment when the href ends in `.`/`..`, and
join.  Hrefs carrying their own scheme or authority (including
network-path references "//host/x.html") and `..` chains climbing past
the base path are outside the modelled space — the scraper's filters keep
only page-relative links, and no theorem below unfolds this definition on
such inputs. -/
def make_absolute_url (href : String) : String :=
  let hsegs := (splitOnChar '/' href.toList).map String.mk
  let segs := if pyStartsWith href "/" then hsegs else ["", "3", "tutorial"] ++ hsegs
  let resolved := resolveSegs [] segs
  let resolved := match hsegs.getLast? with
    | some s => if s = "." || s = ".." then resolved ++ [""] else resolved
    | none => resolved
  let path := joinWith "/" resolved
  "https://docs.python.org" ++ (if path = "" then "/" else path)

/-- One `a.reference internal` link of the tutorial index page: its href
attribute and its text content. -/
structure Link where
  href : String
  text : String
deriving DecidableEq

/-- Section stub produced by `scrape_index`. -/
structure Stub where
  title : String
  url : String
  slug : String
  order_index : Nat
  difficulty : String
deriving DecidableEq

/-- The link filter of `scrape_index`, as one predicate: kept hrefs are
non-empty, not anchors, not external, end in ".html" and do not mention
the index page. -/
def goodHref (href : String) : Bool :=
  !(href = "") && !(pyStartsWith href "#") && !(pyStartsWith href "http") &&
  pyEndsWith href ".html" && !(strContains href "index.html")

/-- The link loop of `PythonDocsScraper.scrape_index`: the filter cascade
in source order (empty/anchor/external, extension, seen-before,
index-self-reference), then stub construction; `order` starts at 1,
increments only on emission, and the loop breaks once it exceeds 15. -/
def scrapeIndexLoop : List Link → List String → Nat → List Stub
  | [], _, _ => []
  | l :: rest, seen, order =>
    if l.href = "" || pyStartsWith l.href "#" || pyStartsWith l.href "http" then
      scrapeIndexLoop rest seen order
    else if !(pyEndsWith l.href ".html") then
      scrapeIndexLoop rest seen order
    else if seen.contains l.href then
      scrapeIndexLoop rest seen order
    else if strContains l.href "index.html" then
      scrapeIndexLoop rest seen order
    else
      let title := clean_text l.text
      let stub : Stub :=
        ⟨title, make_absolute_url l.href, generate_slug title, order,
         estimate_difficulty order title⟩
      if order + 1 > 15 then [stub]
      else stub :: scrapeIndexLoop rest (l.href :: seen) (order + 1)

/-- Mirror of `scrapeIndexLoop` that returns the raw hrefs the loop emits
stubs for, used to reason about deduplication (the source deduplicates on
the raw href via `seen_urls`). -/
def emittedHrefs : List Link → List String → Nat → List String
  | [], _, _ => []
  | l :: rest, seen, order =>
    if l.href = "" || pyStartsWith l.href "#" || pyStartsWith l.href "http" then
      emittedHrefs rest seen order
    else if !(pyEndsWith l.href ".html") then
      emittedHrefs rest seen order
    else if seen.contains l.href then
      emittedHrefs rest seen order
    else if strContains l.href "index.html" then
      emittedHrefs rest seen order
    else
      if order + 1 > 15 then [l.href]
      else l.href :: emittedHrefs rest (l.href :: seen) (order + 1)

/-- Embedding of `PythonDocsScraper.scrape_index`.  The fetched page is
abstracted to `none` (fetch failed), `some none` (no content container) or
`some (some links)` (the `a.reference internal` links of the content area,
in document order); the first two cases return the empty list. -/
def scrape_index (page : Option (Option (List Link))) : List Stub :=
  match page with
  | none => []
  | some none => []
  | some (some links) => scrapeIndexLoop links [] 1

/-! ## BaseScraper.scrape_all and ScraperService (app/scrapers/base.py,
app/services/scraper_service.py)

The per-section page fetch+parse (`scrape_section`) is abstracted as a
function from the section URL to `Option SectionContent` — `none` covers
both a failed fetch and a missing content container.  The database session
becomes an explicit state: `committed` rows survive `commit`, `pending`
rows are discarded by `rollback`.  SQLAlchemy ids are modelled as `Nat`
surrogates for the generated UUIDs. -/

/-- The content dict returned by `PythonDocsScraper.scrape_section`. -/
structure SectionContent where
  content_raw : String
  source_url : String
  estimated_time_minutes : Nat
  code_examples : List String
  word_count : Nat
deriving DecidableEq

/-- The merged `{**item, **section}` dict built by `scrape_all`: index-stub
metadata plus scraped content.  `title` is an `Option` to model dict-key
presence, which the storage loop checks (`"title" not in section_data`);
`scrape_all` itself always fills it from the stub. -/
structure MergedSection where
  title : Option String
  url : String
  slug : String
  order_index : Nat
  difficulty : String
  content_raw : String
  source_url : String
  estimated_time_minutes : Nat
  code_examples : List String
deriving DecidableEq

/-- Embedding of `BaseScraper.scrape_all`: scrape each indexed stub's page
in order and keep only the stubs whose section scrape returned content,
merging stub metadata with the content (a logged-and-skipped failure
leaves no trace in the returned list). -/
def scrape_all (index : List Stub) (fetchSection : String → Option SectionContent) :
    List MergedSection :=
  index.filterMap fun item =>
    (fetchSection item.url).map fun c =>
      { title := some item.title
        url := item.url
        slug := item.slug
        order_index := item.order_index
        difficulty := item.difficulty
        content_raw := c.content_raw
        source_url := c.source_url
        estimated_time_minutes := c.estimated_time_minutes
        code_examples := c.code_examples }

/-- A Language row. -/
structure Language where
  id : Nat
  name : String
  slug : String
  official_doc_url : String
deriving DecidableEq

/-- A DocSection row as stored by the per-section loop. -/
structure StoredSection where
  language_id : Nat
  title : String
  slug : String
  content_raw : String
  content_summary : String
  source_url : String
  order_index : Nat
  estimated_time_minutes : Nat
  difficulty : String
  is_quick_path : Bool
  is_deep_path : Bool
deriving DecidableEq

/-- The database session state.  `languages` and `committed` are the
durable (committed) Language and DocSection rows; `pendingLangs` and
`pending` are rows flushed in the current transaction but not yet
committed.  `commit` makes both kinds of pending rows durable; `rollback`
reverts the whole current transaction — including a Language row flushed
by `_get_or_create_language` before the loop's first commit, exactly as
SQLAlchemy's `session.rollback()` does in the source. -/
structure DB where
  languages : List Language
  committed : List StoredSection
  pendingLangs : List Language
  pending : List StoredSection
deriving DecidableEq

/-- Transaction commit: all pending rows (language and section) become
durable. -/
def DB.commit (db : DB) : DB :=
  { languages := db.languages ++ db.pendingLangs
    committed := db.committed ++ db.pending
    pendingLangs := []
    pending := [] }

/-- Transaction rollback: all uncommitted work is discarded — section rows
and any Language row still pending from the start of the run. -/
def DB.rollback (db : DB) : DB :=
  { db with pendingLangs := [], pending := [] }

/-- Session close between two ingest runs: uncommitted work of the closed
session is discarded (each run owns its own session in the source). -/
def DB.sessionEnd (db : DB) : DB :=
  db.rollback

/-- Embedding of `ScraperService._get_or_create_language`: look the
language up by exact name (the SELECT sees committed rows and rows flushed
in the current transaction); return it when present, otherwise add and
flush a new row — the row stays uncommitted until the storage loop's first
commit.  The new row's id is a fresh surrogate for the generated UUID. -/
def get_or_create_language (db : DB) (name officialDocUrl : String) :
    DB × Language :=
  match (db.languages ++ db.pendingLangs).find? fun l => l.name = name with
  | some l => (db, l)
  | none =>
    let l : Language :=
      { id := (db.languages ++ db.pendingLangs).length
        name := name
        slug := pyLower name
        official_doc_url := officialDocUrl }
    ({ db with pendingLangs := db.pendingLangs ++ [l] }, l)

/-- Embedding of `ScraperService._generate_summary`.  The AI call is the
explicit parameter `ai` (summary text or a raised exception); content
under 100 chars short-circuits to the intro placeholder, an empty AI
answer degrades to one placeholder and an AI exception to another. -/
def generate_summary (ai : String → Except Unit String) (content : String) :
    String :=
  if content = "" || content.length < 100 then
    "Introduction to programming concepts."
  else
    match ai (content.take 3000) with
    | .ok s => if s = "" then "Learn programming fundamentals." else s
    | .error _ => "Comprehensive programming tutorial."

/-- The DocSection row built for one merged section at loop position
`idx` (0-based `enumerate` index): the quick-path flag is the positional
test `idx < total_sections * 0.4`, written with exact rational arithmetic
(`10 * idx < 4 * total`; for the section counts involved the float product
is exact, e.g. `10 * 0.4 == 4.0`). -/
def mkStoredSection (ai : String → Except Unit String) (languageId total idx : Nat)
    (sd : MergedSection) (title : String) : StoredSection :=
  let contentRaw :=
    if sd.content_raw = "" then "Content will be available soon." else sd.content_raw
  let preview := joinWith " " ((pyWords contentRaw).take 100)
  { language_id := languageId
    title := title
    slug := sd.slug
    content_raw := contentRaw.take 50000
    content_summary := generate_summary ai preview
    source_url := sd.source_url
    order_index := sd.order_index
    estimated_time_minutes := sd.estimated_time_minutes
    difficulty := sd.difficulty
    is_quick_path := decide (10 * idx < 4 * total)
    is_deep_path := true }

/-- The per-section storage loop of
`ScraperService.scrape_and_store_language`.  `idx` is the `enumerate`
index (incremented for skipped sections too), `stored` the running
`stored_count`.  A section with no title key is skipped without a crash.
`exn idx` says whether an exception is raised anywhere inside the `try`
of iteration `idx` (DB flush/commit failure, bad enum value, ...): the
handler calls `db.rollback()`, which reverts the whole current
transaction — in a language-creating run with no commit yet, that
includes the flushed Language row — and continues with the next section.
The `any` test models the section INSERT's `language_id` foreign key: when
the language row is no longer in the session (neither committed nor
pending), the flush raises IntegrityError, caught by the same handler.  A
successful iteration adds the section row and commits immediately. -/
def storeSections (ai : String → Except Unit String) (exn : Nat → Bool)
    (languageId total : Nat) :
    List MergedSection → Nat → Nat → DB → DB × Nat
  | [], _, stored, db => (db, stored)
  | sd :: rest, idx, stored, db =>
    match sd.title with
    | none => storeSections ai exn languageId total rest (idx + 1) stored db
    | some title =>
      if exn idx then
        storeSections ai exn languageId total rest (idx + 1) stored db.rollback
      else if (db.languages ++ db.pendingLangs).any (fun l => l.id = languageId) then
        let sec := mkStoredSection ai languageId total idx sd title
        let db := { db with pending := db.pending ++ [sec] }
        storeSections ai exn languageId total rest (idx + 1) (stored + 1) db.commit
      else
        storeSections ai exn languageId total rest (idx + 1) stored db.rollback

/-- Reference function: the section rows the storage loop ends up
committing, in order — titled sections at non-failing iterations. -/
def storedRows (ai : String → Except Unit String) (exn : Nat → Bool)
    (languageId total : Nat) :
    List MergedSection → Nat → List StoredSection
  | [], _ => []
  | sd :: rest, idx =>
    match sd.title with
    | none => storedRows ai exn languageId total rest (idx + 1)
    | some title =>
      if exn idx then storedRows ai exn languageId total rest (idx + 1)
      else mkStoredSection ai languageId total idx sd title ::
        storedRows ai exn languageId total rest (idx + 1)

/-- The caller-facing result dict of `scrape_and_store_language`. -/
structure IngestResult where
  language_id : Nat
  language_name : String
  sections_scraped : Nat
  sections_stored : Nat
  quick_path_sections : Nat
deriving DecidableEq

/-- Embedding of `ScraperService.scrape_and_store_language`: resolve or
create the language, require a scraper for the language
(`ValueError` for anything but "python"), run `scrape_all`, store the
sections with per-section commit/rollback, and report
`sections_scraped = len(sections_data)` (the length of `scrape_all`'s
output) versus `sections_stored = stored_count`. -/
def scrape_and_store_language (ai : String → Except Unit String)
    (exn : Nat → Bool) (fetchSection : String → Option SectionContent)
    (index : List Stub) (db : DB) (languageName officialDocUrl : String) :
    Except String (DB × IngestResult) :=
  let lang := get_or_create_language db languageName officialDocUrl
  if pyLower languageName = "python" then
    let sectionsData := scrape_all index fetchSection
    let total := sectionsData.length
    let res := storeSections ai exn lang.2.id total sectionsData 0 0 lang.1
    .ok (res.1,
      { language_id := lang.2.id
        language_name := languageName
        sections_scraped := sectionsData.length
        sections_stored := res.2
        quick_path_sections :=
          (List.range res.2).countP fun i => 10 * i < 4 * total })
  else .error ("No scraper available for " ++ languageName)

/-! ## Concrete scenario inputs used by the scenario claims -/

/-- Section content that every successful page fetch of the demo scenarios
returns. -/
def demoContent (u : String) : SectionContent :=
  { content_raw := "body"
    source_url := u
    estimated_time_minutes := 30
    code_examples := []
    word_count := 1 }

/-- The i-th demo index stub (1-based), with source page "u<i>". -/
def demoStub (i : Nat) : Stub :=
  { title := "Section " ++ toString i
    url := "u" ++ toString i
    slug := "section-" ++ toString i
    order_index := i
    difficulty := "easy" }

/-- An index of 5 stubs. -/
def index5 : List Stub := (List.range 5).map fun i => demoStub (i + 1)

/-- An index of 10 stubs. -/
def index10 : List Stub := (List.range 10).map fun i => demoStub (i + 1)

/-- Fetcher for which every section page succeeds. -/
def fetchAll : String → Option SectionContent := fun u => some (demoContent u)

/-- Fetcher for which exactly section 3's page fetch fails. -/
def fetchFail3 : String → Option SectionContent :=
  fun u => if u = "u3" then none else some (demoContent u)

/-- An AI provider that always raises (the summary falls back to its
placeholder, keeping the scenarios deterministic). -/
def aiDown : String → Except Unit String := fun _ => .error ()

/-- No storage-loop iteration raises. -/
def noExn : Nat → Bool := fun _ => false

/-- Exactly the storage-loop iteration at index 1 raises. -/
def exnAt1 : Nat → Bool := fun i => i = 1

/-- Exactly the storage-loop iteration at index 0 raises. -/
def exnAt0 : Nat → Bool := fun i => i = 0

/-- An empty database session. -/
def db0 : DB :=
  { languages := [], committed := [], pendingLangs := [], pending := [] }

def tutorialUrl : String := "https://docs.python.org/3/tutorial/"

/-- The partial-failure ingestion run: 5 index stubs, section 3's fetch
fails, everything else succeeds. -/
def ingestRun5 : Except String (DB × IngestResult) :=
  scrape_and_store_language aiDown noExn fetchFail3 index5 db0 "Python" tutorialUrl

/-- The quick-path scenario run: 10 index stubs, all fetches succeed. -/
def ingestRun10 : Except String (DB × IngestResult) :=
  scrape_and_store_language aiDown noExn fetchAll index10 db0 "Python" tutorialUrl

/-- Database state of a run result (`db0` for a raised run). -/
def runDB : Except String (DB × IngestResult) → DB
  | .ok p => p.1
  | .error _ => db0

/-- Result dict of a run (a dummy for a raised run). -/
def runResult : Except String (DB × IngestResult) → IngestResult
  | .ok p => p.2
  | .error _ => ⟨0, "", 0, 0, 0⟩

/-- A second ingestion run for the same language, in a fresh session, on
the database produced by `ingestRun5`. -/
def ingestRun5Again : Except String (DB × IngestResult) :=
  scrape_and_store_language aiDown noExn fetchFail3 index5
    (runDB ingestRun5).sessionEnd "Python" tutorialUrl

/-- An index of 3 stubs. -/
def index3 : List Stub := (List.range 3).map fun i => demoStub (i + 1)

/-- A language-creating ingestion run over 3 sections whose first storage
iteration raises: the rollback also reverts the flushed Language row, and
every later section then fails its foreign-key insert. -/
def ingestRunFk : Except String (DB × IngestResult) :=
  scrape_and_store_language aiDown exnAt0 fetchAll index3 db0 "Python" tutorialUrl

/-- Three merged demo sections, as `scrape_all` merges them. -/
def demoSections3 : List MergedSection :=
  scrape_all ((List.range 3).map fun i => demoStub (i + 1)) fetchAll

/-- The merged record of the i-th demo section. -/
def demoMerged (i : Nat) : MergedSection :=
  { title := some ("Section " ++ toString i)
    url := "u" ++ toString i
    slug := "section-" ++ toString i
    order_index := i
    difficulty := "easy"
    content_raw := "body"
    source_url := "u" ++ toString i
    estimated_time_minutes := 30
    code_examples := [] }

/-- A session whose language row is already durable. -/
def dbLang : DB :=
  { languages := [⟨0, "Python", "python", tutorialUrl⟩]
    committed := [], pendingLangs := [], pending := [] }

/-- A creating-run session: the Language row is flushed but uncommitted. -/
def dbPend : DB :=
  { languages := [], committed := []
    pendingLangs := [⟨0, "Python", "python", tutorialUrl⟩], pending := [] }

/-- A 60-char content string, above the summarizer's 50-char minimum. -/
def longContent : String := String.mk (List.replicate 60 'a')

/-- A concrete index-page link list: two good links, an anchor link, and a
duplicate href. -/
def demoLinks : List Link :=
  [⟨"appetite.html", "Whetting Your Appetite"⟩, ⟨"#x", "Anchor"⟩,
   ⟨"interpreter.html", "Using the Python Interpreter"⟩, ⟨"appetite.html", "Dup"⟩]

end DocuLens

namespace DocuLens

/-! # Helper lemmas -/

/-- Truncating a non-empty list to a positive length and indexing it leaves
a non-empty list. -/
theorem mapIdx_take_ne_nil {α β : Type} (f : Nat → α → β) (l : List α)
    (limit : Nat) (h1 : 1 ≤ limit) (h2 : l ≠ []) :
    (l.take limit).mapIdx f ≠ [] := by
  cases l with
  | nil => exact absurd rfl h2
  | cons a l =>
    cases limit with
    | zero => omega
    | succ n =>
      intro hcon
      have hlen := congrArg List.length hcon
      simp [List.length_mapIdx] at hlen

/-- The fallback list is non-empty whenever the selected pool is non-empty
and the limit is positive. -/
theorem get_fallback_ne_nil (topic : String) (difficulty : Option String)
    (limit : Nat) (h1 : 1 ≤ limit) (h2 : fallbackPool topic difficulty ≠ []) :
    get_fallback_problems topic difficulty limit ≠ [] :=
  mapIdx_take_ne_nil _ _ _ h1 h2

/-- Character code of `Char.ofNat` at a valid code point. -/
theorem char_toNat_ofNat_valid (n : Nat) (hv : n.isValidChar) :
    (Char.ofNat n).toNat = n := by
  simp only [Char.ofNat]
  rw [dif_pos hv]
  rfl

/-- `Char.toLower` never returns an ASCII uppercase letter. -/
theorem toLower_isUpper_false (a : Char) : a.toLower.isUpper = false := by
  unfold Char.toLower
  by_cases h : a.toNat ≥ 65 ∧ a.toNat ≤ 90
  · rw [if_pos h]
    obtain ⟨h1, h2⟩ := h
    have hv : (a.toNat + 32).isValidChar := Or.inl (by omega)
    have ht := char_toNat_ofNat_valid (a.toNat + 32) hv
    simp only [Char.isUpper, Bool.and_eq_false_iff]
    right
    simp only [decide_eq_false_iff_not, Not]
    intro hle
    have h90 : (Char.ofNat (a.toNat + 32)).toNat ≤ 90 := hle
    omega
  · rw [if_neg h]
    simp only [Char.isUpper, Bool.and_eq_false_iff]
    by_cases h65 : a.toNat ≥ 65
    · right
      simp only [decide_eq_false_iff_not, Not]
      intro hle
      have h90 : a.toNat ≤ 90 := hle
      exact h ⟨h65, h90⟩
    · left
      simp only [decide_eq_false_iff_not, Not]
      intro hle
      exact h65 hle

/-- Every char of a collapsed run list is a hyphen or an original char that
is neither whitespace nor underscore. -/
theorem collapseWs_mem (l : List Char) : ∀ (b : Bool) (c : Char),
    c ∈ collapseWs l b → c = '-' ∨ (c ∈ l ∧ (pyIsSpace c || c = '_') = false) := by
  induction l with
  | nil => intro b c hc; simp [collapseWs] at hc
  | cons a l ih =>
    intro b c hc
    by_cases hsp : (pyIsSpace a || a = '_') = true
    · rw [collapseWs, if_pos hsp] at hc
      rcases b with _ | _
      · simp only [Bool.false_eq_true, if_false, List.mem_cons] at hc
        rcases hc with rfl | hc
        · exact Or.inl rfl
        · rcases ih true c hc with h | ⟨hmem, hnot⟩
          · exact Or.inl h
          · exact Or.inr ⟨List.mem_cons_of_mem a hmem, hnot⟩
      · simp only [if_true] at hc
        rcases ih true c hc with h | ⟨hmem, hnot⟩
        · exact Or.inl h
        · exact Or.inr ⟨List.mem_cons_of_mem a hmem, hnot⟩
    · rw [collapseWs, if_neg hsp] at hc
      rcases List.mem_cons.mp hc with rfl | hc
      · exact Or.inr ⟨List.mem_cons_self c l, eq_false_of_ne_true hsp⟩
      · rcases ih false c hc with h | ⟨hmem, hnot⟩
        · exact Or.inl h
        · exact Or.inr ⟨List.mem_cons_of_mem a hmem, hnot⟩

/-- The head of a dropWhile result never satisfies the dropped predicate. -/
theorem head?_dropWhile_ne (p : Char → Bool) (l : List Char) :
    ∀ a, ((l.dropWhile p).head? = some a) → p a = false := by
  induction l with
  | nil => intro a h; simp at h
  | cons c l ih =>
    intro a h
    by_cases hp : p c = true
    · rw [List.dropWhile_cons_of_pos hp] at h
      exact ih a h
    · rw [List.dropWhile_cons_of_neg hp] at h
      simp at h
      subst h
      exact eq_false_of_ne_true hp

/-- Stripping leading hyphens and then truncating cannot leave a leading
hyphen (truncation only shortens from the right). -/
theorem slug_head_ne_dash (x : List Char) :
    ((stripDashes x).take 50).head? ≠ some '-' := by
  intro hcon
  set y := x.dropWhile fun c => c = '-' with hy
  have hpre := List.rdropWhile_prefix (fun c => c = '-') (l := y)
  obtain ⟨t, ht⟩ := hpre
  have hhead : (stripDashes x).head? = some '-' := by
    rcases hz : stripDashes x with _ | ⟨c, z⟩
    · rw [hz] at hcon; simp at hcon
    · rw [hz] at hcon
      simp only [List.take_succ_cons, List.head?_cons] at hcon
      rw [List.head?_cons]
      exact hcon
  have hyhead : y.head? = some '-' := by
    have happ : stripDashes x ++ t = y := ht
    rw [← happ]
    rcases hz : stripDashes x with _ | ⟨c, z⟩
    · rw [hz] at hhead; simp at hhead
    · rw [hz] at hhead
      simp only [List.head?_cons] at hhead ⊢
      simpa using hhead
  have := head?_dropWhile_ne (fun c => c = '-') x '-' hyhead
  simp at this

/-- Durable-language regime: on a session with empty pendings whose
language row is already committed, the storage loop shows exact
per-section isolation — the final committed rows are the prior ones
followed by `storedRows` (the titled sections at non-failing iterations,
in order), nothing stays pending, the language table is untouched, and the
stored count grows by the number of stored rows. -/
theorem storeSections_durable (ai : String → Except Unit String) (exn : Nat → Bool)
    (lid total : Nat) :
    ∀ (sections : List MergedSection) (idx stored : Nat) (db : DB),
      db.pending = [] → db.pendingLangs = [] →
      lid ∈ db.languages.map (fun l => l.id) →
      storeSections ai exn lid total sections idx stored db =
        ({ db with committed := db.committed ++ storedRows ai exn lid total sections idx },
         stored + (storedRows ai exn lid total sections idx).length) := by
  intro sections
  induction sections with
  | nil =>
    intro idx stored db hp hpl hl
    simp [storeSections, storedRows]
  | cons sd rest ih =>
    intro idx stored db hp hpl hl
    obtain ⟨langs, comm, pendl, pend⟩ := db
    simp only at hp hpl hl
    subst hp
    subst hpl
    cases htitle : sd.title with
    | none =>
      simp only [storeSections, storedRows, htitle]
      exact ih _ _ _ rfl rfl hl
    | some t =>
      have hany : ((langs ++ ([] : List Language)).any fun l => l.id = lid) = true := by
        simp only [List.append_nil, List.any_eq_true]
        rw [List.mem_map] at hl
        obtain ⟨l, hlm, hid⟩ := hl
        exact ⟨l, hlm, by simp [hid]⟩
      by_cases hexn : exn idx = true
      · simp only [storeSections, storedRows, htitle, hexn, if_true]
        exact ih _ _ _ rfl rfl hl
      · rw [storeSections, storedRows]
        rw [htitle]
        simp only [hexn, Bool.false_eq_true, if_false]
        rw [if_pos hany]
        have hl2 : lid ∈ (langs ++ ([] : List Language)).map (fun l => l.id) := by
          simpa using hl
        rw [ih _ _ _ rfl rfl hl2]
        simp only [DB.commit]
        simp only [List.nil_append, List.append_nil, List.singleton_append,
          List.append_assoc, List.length_cons, DB.mk.injEq, Prod.mk.injEq,
          true_and, and_true]
        omega

/-- Dangling-language regime: on a session with empty pendings whose
language row is absent from the table, every titled section fails its
foreign-key insert (or its own exception) and is rolled back — the loop
runs to the end storing nothing and leaving the session unchanged. -/
theorem storeSections_dangling (ai : String → Except Unit String) (exn : Nat → Bool)
    (lid total : Nat) :
    ∀ (sections : List MergedSection) (idx stored : Nat) (db : DB),
      db.pending = [] → db.pendingLangs = [] →
      ¬ lid ∈ db.languages.map (fun l => l.id) →
      storeSections ai exn lid total sections idx stored db = (db, stored) := by
  intro sections
  induction sections with
  | nil =>
    intro idx stored db hp hpl hl
    rfl
  | cons sd rest ih =>
    intro idx stored db hp hpl hl
    obtain ⟨langs, comm, pendl, pend⟩ := db
    simp only at hp hpl hl
    subst hp
    subst hpl
    cases htitle : sd.title with
    | none =>
      simp only [storeSections, htitle]
      exact ih _ _ _ rfl rfl hl
    | some t =>
      have hany : ((langs ++ ([] : List Language)).any fun l => l.id = lid) = false := by
        simp only [List.append_nil, List.any_eq_false]
        intro l hlm hid
        exact hl (List.mem_map.mpr ⟨l, hlm, by simpa using hid⟩)
      by_cases hexn : exn idx = true
      · simp only [storeSections, htitle, hexn, if_true]
        exact ih _ _ _ rfl rfl hl
      · rw [storeSections]
        rw [htitle]
        simp only [hexn, Bool.false_eq_true, if_false]
        rw [if_neg (by simp only [Bool.not_eq_true]; exact hany)]
        exact ih _ _ _ rfl rfl hl

/-- The storage loop changes the language table in exactly one way: the
first commit makes the pending language rows durable.  The final table is
either the initial one or the initial one extended by the initially
pending rows. -/
theorem storeSections_langs_cases (ai : String → Except Unit String) (exn : Nat → Bool)
    (lid total : Nat) :
    ∀ (sections : List MergedSection) (idx stored : Nat) (db : DB),
      (storeSections ai exn lid total sections idx stored db).1.languages = db.languages ∨
      (storeSections ai exn lid total sections idx stored db).1.languages =
        db.languages ++ db.pendingLangs := by
  intro sections
  induction sections with
  | nil => intro idx stored db; exact Or.inl rfl
  | cons sd rest ih =>
    intro idx stored db
    cases htitle : sd.title with
    | none =>
      simp only [storeSections, htitle]
      exact ih _ _ _
    | some t =>
      by_cases hexn : exn idx = true
      · simp only [storeSections, htitle, hexn, if_true]
        rcases ih (idx + 1) stored db.rollback with h | h
        · exact Or.inl h
        · left
          rw [h]
          simp [DB.rollback]
      · by_cases hany : ((db.languages ++ db.pendingLangs).any fun l => l.id = lid) = true
        · simp only [storeSections, htitle, hexn, Bool.false_eq_true, if_false, hany,
            if_true]
          rcases ih (idx + 1) (stored + 1)
              (DB.commit { db with pending := db.pending ++
                [mkStoredSection ai lid total idx sd t] }) with h | h
          · right
            rw [h]
            rfl
          · right
            rw [h]
            simp [DB.commit]
        · simp only [storeSections, htitle, hexn, Bool.false_eq_true, if_false, hany]
          rcases ih (idx + 1) stored db.rollback with h | h
          · exact Or.inl h
          · left
            rw [h]
            simp [DB.rollback]

/-- Searching an appended list skips a first part with no match. -/
theorem find?_append_none {α : Type} (p : α → Bool) {l1 : List α} (l2 : List α)
    (h : l1.find? p = none) : (l1 ++ l2).find? p = l2.find? p := by
  induction l1 with
  | nil => rfl
  | cons a l ih =>
    rw [List.find?_cons] at h
    rcases hp : p a with _ | _
    · rw [hp] at h
      rw [List.cons_append, List.find?_cons, hp]
      exact ih h
    · rw [hp] at h
      exact absurd h (by simp)

/-- One ingest run on a fresh session changes the language table in at
most one way: either it is unchanged (language found, or the created row
was rolled back before any commit), or — only when no row of that name
existed — exactly one row of that name was appended. -/
theorem ingest_lang_cases (ai : String → Except Unit String) (exn : Nat → Bool)
    (fetch : String → Option SectionContent) (index : List Stub) (db : DB)
    (name url : String) (db' : DB) (r : IngestResult)
    (hfresh : db.pendingLangs = [])
    (h : scrape_and_store_language ai exn fetch index db name url = .ok (db', r)) :
    db'.languages = db.languages ∨
    (db.languages.find? (fun l => l.name = name) = none ∧
      ∃ l2 : Language, l2.name = name ∧ db'.languages = db.languages ++ [l2]) := by
  by_cases hpy : pyLower name = "python"
  · obtain ⟨langs, comm, pendl, pend⟩ := db
    simp only at hfresh
    subst hfresh
    rw [scrape_and_store_language, get_or_create_language] at h
    rcases hf : ((langs ++ ([] : List Language)).find? fun l => l.name = name) with _ | l
    · rw [hf] at h
      rw [if_pos hpy] at h
      simp only [Except.ok.injEq, Prod.mk.injEq] at h
      obtain ⟨hdb, _⟩ := h
      have hcase : db'.languages = langs ∨
          db'.languages = langs ++
            [(⟨(langs ++ ([] : List Language)).length, name, pyLower name, url⟩ : Language)] := by
        rw [← hdb]
        exact storeSections_langs_cases _ _ _ _ _ _ _ _
      rcases hcase with hL | hR
      · exact Or.inl hL
      · right
        rw [List.append_nil] at hf
        exact ⟨hf, ⟨(langs ++ ([] : List Language)).length, name, pyLower name, url⟩,
          rfl, hR⟩
    · rw [hf] at h
      rw [if_pos hpy] at h
      simp only [Except.ok.injEq, Prod.mk.injEq] at h
      obtain ⟨hdb, _⟩ := h
      have hcase : db'.languages = langs ∨
          db'.languages = langs ++ ([] : List Language) := by
        rw [← hdb]
        exact storeSections_langs_cases _ _ _ _ _ _ _ _
      rcases hcase with hL | hR
      · exact Or.inl hL
      · left
        rw [hR, List.append_nil]
  · rw [scrape_and_store_language, if_neg hpy] at h
    exact absurd h (by simp)

/-- Invariants of the index-link loop: the stub urls are the absolutized
emitted hrefs; order indices run consecutively from the entry order; every
emitted href passes the link filter, was not seen before, and comes from
an input link; the emitted hrefs are pairwise distinct (dedup by raw
href); and the loop emits at most `16 - order` stubs. -/
theorem scrapeIndexLoop_spec (links : List Link) : ∀ (seen : List String) (order : Nat),
    (scrapeIndexLoop links seen order).map (fun st => st.url) =
      (emittedHrefs links seen order).map make_absolute_url ∧
    (scrapeIndexLoop links seen order).map (fun st => st.order_index) =
      List.range' order (scrapeIndexLoop links seen order).length ∧
    (∀ h ∈ emittedHrefs links seen order,
      goodHref h = true ∧ ¬ h ∈ seen ∧ ∃ l ∈ links, l.href = h) ∧
    (emittedHrefs links seen order).Nodup ∧
    (order ≤ 15 → (scrapeIndexLoop links seen order).length ≤ 16 - order) := by
  induction links with
  | nil =>
    intro seen order
    refine ⟨rfl, rfl, ?_, List.nodup_nil, ?_⟩
    · intro h hh
      simp [emittedHrefs] at hh
    · intro _
      simp [scrapeIndexLoop]
  | cons l rest ih =>
    intro seen order
    by_cases h1 : (l.href = "" || pyStartsWith l.href "#" || pyStartsWith l.href "http") = true
    · rw [scrapeIndexLoop, emittedHrefs, if_pos h1, if_pos h1]
      obtain ⟨a, b, c, d, e⟩ := ih seen order
      refine ⟨a, b, ?_, d, e⟩
      intro h hh
      obtain ⟨hg, hs, l2, hl2, hh2⟩ := c h hh
      exact ⟨hg, hs, l2, List.mem_cons_of_mem _ hl2, hh2⟩
    · by_cases h2 : (!(pyEndsWith l.href ".html")) = true
      · rw [scrapeIndexLoop, emittedHrefs, if_neg h1, if_neg h1, if_pos h2, if_pos h2]
        obtain ⟨a, b, c, d, e⟩ := ih seen order
        refine ⟨a, b, ?_, d, e⟩
        intro h hh
        obtain ⟨hg, hs, l2, hl2, hh2⟩ := c h hh
        exact ⟨hg, hs, l2, List.mem_cons_of_mem _ hl2, hh2⟩
      · by_cases h3 : (seen.contains l.href) = true
        · rw [scrapeIndexLoop, emittedHrefs, if_neg h1, if_neg h1, if_neg h2, if_neg h2,
            if_pos h3, if_pos h3]
          obtain ⟨a, b, c, d, e⟩ := ih seen order
          refine ⟨a, b, ?_, d, e⟩
          intro h hh
          obtain ⟨hg, hs, l2, hl2, hh2⟩ := c h hh
          exact ⟨hg, hs, l2, List.mem_cons_of_mem _ hl2, hh2⟩
        · by_cases h4 : (strContains l.href "index.html") = true
          · rw [scrapeIndexLoop, emittedHrefs, if_neg h1, if_neg h1, if_neg h2, if_neg h2,
              if_neg h3, if_neg h3, if_pos h4, if_pos h4]
            obtain ⟨a, b, c, d, e⟩ := ih seen order
            refine ⟨a, b, ?_, d, e⟩
            intro h hh
            obtain ⟨hg, hs, l2, hl2, hh2⟩ := c h hh
            exact ⟨hg, hs, l2, List.mem_cons_of_mem _ hl2, hh2⟩
          · have h1f : (decide (l.href = "") || pyStartsWith l.href "#" ||
                pyStartsWith l.href "http") = false := eq_false_of_ne_true h1
            have hgood : goodHref l.href = true := by
              have hends : pyEndsWith l.href ".html" = true := by
                have h2f := eq_false_of_ne_true h2
                simpa using h2f
              have h4f : strContains l.href "index.html" = false :=
                eq_false_of_ne_true h4
              simp only [Bool.or_eq_false_iff] at h1f
              obtain ⟨⟨hemp, hsh⟩, hhttp⟩ := h1f
              simp [goodHref, hemp, hsh, hhttp, hends, h4f]
            have hnotseen : ¬ l.href ∈ seen := by
              intro hmem
              exact h3 (List.elem_iff.mpr hmem)
            by_cases h5 : order + 1 > 15
            · rw [scrapeIndexLoop, emittedHrefs, if_neg h1, if_neg h1, if_neg h2, if_neg h2,
                if_neg h3, if_neg h3, if_neg h4, if_neg h4, if_pos h5, if_pos h5]
              refine ⟨rfl, by simp, ?_, List.nodup_singleton _, ?_⟩
              · intro h hh
                rw [List.mem_singleton] at hh
                subst hh
                exact ⟨hgood, hnotseen, l, List.mem_cons_self _ _, rfl⟩
              · intro hord
                simp only [List.length_singleton]
                omega
            · rw [scrapeIndexLoop, emittedHrefs, if_neg h1, if_neg h1, if_neg h2, if_neg h2,
                if_neg h3, if_neg h3, if_neg h4, if_neg h4, if_neg h5, if_neg h5]
              obtain ⟨a, b, c, d, e⟩ := ih (l.href :: seen) (order + 1)
              refine ⟨?_, ?_, ?_, ?_, ?_⟩
              · simp only [List.map_cons, a]
              · simp only [List.map_cons, List.length_cons, b, List.range'_succ]
              · intro h hh
                rcases List.mem_cons.mp hh with rfl | hh2
                · exact ⟨hgood, hnotseen, l, List.mem_cons_self _ _, rfl⟩
                · obtain ⟨hg, hs, l2, hl2, hh3⟩ := c h hh2
                  refine ⟨hg, ?_, l2, List.mem_cons_of_mem _ hl2, hh3⟩
                  intro hmem
                  exact hs (List.mem_cons_of_mem _ hmem)
              · rw [List.nodup_cons]
                refine ⟨?_, d⟩
                intro hmem
                obtain ⟨_, hs, _⟩ := c l.href hmem
                exact hs (List.mem_cons_self _ _)
              · intro hord
                have := e (by omega)
                simp only [List.length_cons]
                omega

/-! # Claim theorems -/

/-- C9: the video-duration parser maps the compact hour/minute/second
notation to total seconds — "PT1H2M3S" parses to 3723 — and any input that
does not match the duration pattern (in particular any input not starting
with the literal "PT" prefix required by the anchored regex) parses to
0. -/
theorem C9_duration :
    parse_duration "PT1H2M3S".toList = 3723 ∧
    ∀ s : List Char, s.take 2 ≠ ['P', 'T'] → parse_duration s = 0 := by
  refine ⟨by decide, ?_⟩
  intro s h
  rw [parse_duration.eq_def]
  split
  · simp at h
  · rfl

/-- C2 counterexample: with the external API down (an exception on the
HTTP call), the search for topic "array", difficulty "easy", limit 3 does
NOT return 3 entries — the curated "array" list has only two "easy"
problems, so the fallback returns 2. -/
theorem C2_counterexample :
    (search_problems_by_topic .exn "array" (some "easy") 3).length ≠ 3 := by
  decide

/-- C2 amended: if the external problem-bank API fails (non-200 status or
an exception), the search with topic "array", difficulty "easy" and limit
3 returns 2 non-empty curated entries (the two easy curated array
problems), not an empty list and not an exception; and for every topic of
the curated tag set, with no difficulty filter and a positive limit, the
matcher returns a non-empty list even with the upstream API fully down. -/
theorem C2_fallback_amended :
    (search_problems_by_topic .exn "array" (some "easy") 3).length = 2 ∧
    (∀ p ∈ search_problems_by_topic .exn "array" (some "easy") 3, p.title ≠ "") ∧
    (∀ ps, search_problems_by_topic (.resp 500 ps) "array" (some "easy") 3 =
      search_problems_by_topic .exn "array" (some "easy") 3) ∧
    (∀ topic ∈ (["array", "string", "tree", "dynamic-programming"] : List String),
      ∀ limit : Nat, 1 ≤ limit →
        search_problems_by_topic .exn topic none limit ≠ []) := by
  refine ⟨by decide, by decide, fun ps => by simp [search_problems_by_topic], ?_⟩
  intro topic ht limit hl
  fin_cases ht <;>
    exact get_fallback_ne_nil _ _ _ hl (by decide)

/-- C2 witness: the amended theorem applied at topic "array", limit 3, and
at an HTTP 500 response. -/
theorem C2_fallback_amended_witness :
    search_problems_by_topic .exn "array" none 3 ≠ [] ∧
    search_problems_by_topic (.resp 500 []) "array" (some "easy") 3 =
      search_problems_by_topic .exn "array" (some "easy") 3 :=
  ⟨C2_fallback_amended.2.2.2 "array" (by decide) 3 (by decide),
   C2_fallback_amended.2.2.1 []⟩

/-- C3 counterexample: the slug of the 51-char title made of 49 'a's, a
space and a 'b' ends in a hyphen — `strip('-')` runs before the 50-char
truncation, so the truncation re-exposes the hyphen that replaced the
space.  This refutes the claim's "no trailing hyphen" conjunct. -/
theorem C3_counterexample :
    (generateSlugList (List.replicate 49 'a' ++ [' ', 'b'])).getLast? = some '-' := by
  decide

/-- C3 amended: for every ASCII title, the generated slug is lowercase and
consists only of characters in [a-z0-9-], has no leading hyphen, and has
length at most 50; a trailing hyphen may remain when the 50-char
truncation cuts right after a hyphen (the counterexample shows that the
original "no trailing hyphen" conjunct fails). -/
theorem C3_slug_amended (title : List Char)
    (_hascii : ∀ c ∈ title, c.toNat < 128) :
    (∀ c ∈ generateSlugList title,
      c.isLower = true ∨ c.isDigit = true ∨ c = '-') ∧
    (generateSlugList title).head? ≠ some '-' ∧
    (generateSlugList title).length ≤ 50 := by
  refine ⟨?_, slug_head_ne_dash _, List.length_take_le _ _⟩
  intro c hc
  have hc2 : c ∈ stripDashes (collapseWs ((title.map Char.toLower).filter keepChar) false) :=
    List.take_subset _ _ hc
  have hc3 : c ∈ (collapseWs ((title.map Char.toLower).filter keepChar) false).dropWhile
      (fun c => c = '-') :=
    ( List.rdropWhile_prefix _ _).sublist.subset hc2
  have hc4 : c ∈ collapseWs ((title.map Char.toLower).filter keepChar) false :=
    List.dropWhile_subset _ hc3
  rcases collapseWs_mem _ false c hc4 with rfl | ⟨hmem, hnsp⟩
  · exact Or.inr (Or.inr rfl)
  · rw [List.mem_filter] at hmem
    obtain ⟨hmap, hkeep⟩ := hmem
    rw [List.mem_map] at hmap
    obtain ⟨a, ha, rfl⟩ := hmap
    have hup := toLower_isUpper_false a
    rw [Bool.or_eq_false_iff] at hnsp
    obtain ⟨hsp, hund⟩ := hnsp
    simp only [keepChar, isWordChar, Bool.or_eq_true] at hkeep
    rcases hkeep with ((halnum | hund2) | hsp2) | hdash
    · simp only [Char.isAlphanum, Char.isAlpha, Bool.or_eq_true] at halnum
      rcases halnum with (hupper | hlower) | hdigit
      · rw [hup] at hupper
        exact absurd hupper (by simp)
      · exact Or.inl hlower
      · exact Or.inr (Or.inl hdigit)
    · rw [hund2] at hund
      exact absurd hund (by simp)
    · rw [hsp2] at hsp
      exact absurd hsp (by simp)
    · simp only [decide_eq_true_eq] at hdash
      exact Or.inr (Or.inr hdash)

/-- C3 witness: the amended theorem applied at the concrete ASCII title
"Hello World!". -/
theorem C3_slug_amended_witness :
    (∀ c ∈ generateSlugList "Hello World!".toList,
      c.isLower = true ∨ c.isDigit = true ∨ c = '-') ∧
    (generateSlugList "Hello World!".toList).head? ≠ some '-' ∧
    (generateSlugList "Hello World!".toList).length ≤ 50 :=
  C3_slug_amended "Hello World!".toList (by decide)

/-- C5 counterexample: the index loop deduplicates on the raw href, not on
the resolved source_url — the two distinct hrefs "a.html" and "./a.html"
both survive the filters and resolve to the same absolute URL, so the
returned stub list carries a duplicate source_url.  This refutes the
claim's "no two stubs with the same source_url" conjunct. -/
theorem C5_counterexample :
    ¬ (((scrape_index (some (some [⟨"a.html", "A"⟩, ⟨"./a.html", "B"⟩]))).map
      fun st => st.url).Nodup) := by
  decide

/-- C5 amended: for every index-scrape run, every returned stub comes from
a link whose href passed the filters (non-empty, not starting with "#" or
"http", ending in ".html", not mentioning "index.html"); the list contains
at most 15 stubs with order_index assigned sequentially from 1 in a single
pass; and it contains no two stubs with the same source_url PROVIDED no
two distinct kept hrefs resolve to the same absolute URL (deduplication is
performed on the raw href). -/
theorem C5_index_amended (links : List Link) :
    (scrape_index (some (some links))).length ≤ 15 ∧
    (scrape_index (some (some links))).map (fun st => st.order_index) =
      List.range' 1 (scrape_index (some (some links))).length ∧
    (∀ st ∈ scrape_index (some (some links)), ∃ l ∈ links,
      goodHref l.href = true ∧ st.url = make_absolute_url l.href) ∧
    ((∀ l1 ∈ links, ∀ l2 ∈ links,
        make_absolute_url l1.href = make_absolute_url l2.href → l1.href = l2.href) →
      ((scrape_index (some (some links))).map (fun st => st.url)).Nodup) := by
  obtain ⟨hurl, hord, hprov, hnodup, hlen⟩ := scrapeIndexLoop_spec links [] 1
  refine ⟨by simpa using hlen (by omega), hord, ?_, ?_⟩
  · intro st hst
    have hmem : st.url ∈ (scrapeIndexLoop links [] 1).map (fun st => st.url) :=
      List.mem_map_of_mem _ hst
    rw [hurl] at hmem
    rw [List.mem_map] at hmem
    obtain ⟨h, hh, hurl2⟩ := hmem
    obtain ⟨hg, _, l2, hl2, hh2⟩ := hprov h hh
    subst hh2
    exact ⟨l2, hl2, hg, hurl2.symm⟩
  · intro hinj
    show ((scrapeIndexLoop links [] 1).map (fun st => st.url)).Nodup
    rw [hurl]
    refine List.Nodup.map_on ?_ hnodup
    intro x hx y hy hxy
    obtain ⟨_, _, lx, hlx, hhx⟩ := hprov x hx
    obtain ⟨_, _, ly, hly, hhy⟩ := hprov y hy
    subst hhx
    subst hhy
    exact hinj lx hlx ly hly hxy

/-- C5 witness: the amended theorem applied to a concrete link list with a
good pair of links, an anchor and a duplicate, whose hrefs resolve
injectively. -/
theorem C5_index_amended_witness :
    ((scrape_index (some (some demoLinks))).map (fun st => st.url)).Nodup ∧
    (scrape_index (some (some demoLinks))).length ≤ 15 :=
  ⟨(C5_index_amended demoLinks).2.2.2 (by decide), (C5_index_amended demoLinks).1⟩

/-- C6: the summarize operation's error contract — (1) content whose
stripped length is under the 50-char minimum fails with the validation
error kind (`badRequest`) with no provider attempted; (2) when the primary
provider raises and the secondary returns "X", the operation returns "X"
without raising; (3) when both providers raise, or neither is configured,
it fails with the service-unavailable kind, which is distinct from the
validation kind. -/
theorem C6_summarize_contract :
    (∀ groq claude maxLen style ctx content, (pyStrip content).length < 50 →
      summarize_documentation groq claude content maxLen style ctx =
        (.error .badRequest, [])) ∧
    (∀ maxLen style ctx content, 50 ≤ (pyStrip content).length →
      summarize_documentation (some fun _ => .error ()) (some fun _ => .ok "X")
        content maxLen style ctx = (.ok "X", ["groq", "claude"])) ∧
    (∀ maxLen style ctx content (f g : String → Except Unit String),
      50 ≤ (pyStrip content).length →
      (∀ p, f p = .error ()) → (∀ p, g p = .error ()) →
      (summarize_documentation (some f) (some g) content maxLen style ctx).1 =
        .error .serviceUnavailable) ∧
    (∀ maxLen style ctx content, 50 ≤ (pyStrip content).length →
      (summarize_documentation none none content maxLen style ctx).1 =
        .error .serviceUnavailable) ∧
    AIError.serviceUnavailable ≠ AIError.badRequest := by
  have hcond : ∀ content : String, 50 ≤ (pyStrip content).length →
      (decide (content = "") || decide ((pyStrip content).length < 50)) = false := by
    intro content h
    simp only [Bool.or_eq_false_iff, decide_eq_false_iff_not]
    constructor
    · intro he
      subst he
      exact absurd h (by decide)
    · omega
  refine ⟨?_, ?_, ?_, ?_, by decide⟩
  · intro groq claude maxLen style ctx content h
    simp only [summarize_documentation]
    rw [if_pos (by simp [h])]
  · intro maxLen style ctx content h
    simp only [summarize_documentation]
    rw [if_neg (by simp [hcond content h])]
  · intro maxLen style ctx content f g h hf hg
    simp only [summarize_documentation]
    rw [if_neg (by simp [hcond content h])]
    simp [hf, hg]
  · intro maxLen style ctx content h
    simp only [summarize_documentation]
    rw [if_neg (by simp [hcond content h])]

/-- C6 witness: the error contract applied at a 2-char content (validation
failure), and at a 60-char content with a raising primary plus an "X"
secondary (failover), with both providers raising, and with neither
configured (service unavailable). -/
theorem C6_summarize_contract_witness :
    summarize_documentation none none "hi" 150 "concise" none =
      (.error .badRequest, []) ∧
    summarize_documentation (some fun _ => .error ()) (some fun _ => .ok "X")
      longContent 150 "concise" none = (.ok "X", ["groq", "claude"]) ∧
    (summarize_documentation (some fun _ => .error ()) (some fun _ => .error ())
      longContent 150 "concise" none).1 = .error .serviceUnavailable ∧
    (summarize_documentation none none longContent 150 "concise" none).1 =
      .error .serviceUnavailable :=
  ⟨C6_summarize_contract.1 none none 150 "concise" none "hi" (by decide),
   C6_summarize_contract.2.1 150 "concise" none longContent (by decide),
   C6_summarize_contract.2.2.1 150 "concise" none longContent _ _ (by decide)
     (fun _ => rfl) (fun _ => rfl),
   C6_summarize_contract.2.2.2.1 150 "concise" none longContent (by decide)⟩

/-- C9 witness: the theorem applied at the concrete inputs "PT1H2M3S" and
the non-matching "XYZ". -/
theorem C9_duration_witness :
    parse_duration "XYZ".toList = 0 ∧ parse_duration "PT1H2M3S".toList = 3723 :=
  ⟨C9_duration.2 "XYZ".toList (by decide), C9_duration.1⟩

/-- C10: with no configured video-API key the search returns the empty
list without raising, whatever the two HTTP calls would have done; an
exception in the search call yields the empty list; and an exception in
the per-item detail lookup yields an empty detail map. -/
theorem C10_video_errors :
    (∀ searchApi detailsApi, search_videos none searchApi detailsApi = []) ∧
    (∀ key detailsApi, search_videos (some key) (.error ()) detailsApi = []) ∧
    (∀ e : Unit, get_video_details (.error e) = []) :=
  ⟨fun _ _ => rfl, fun _ _ => rfl, fun _ => rfl⟩

/-- C1 counterexample: in the 5-stub run where exactly section 3's page
fetch fails, the ingest result does NOT report `sections_scraped = 5` —
`scrape_all` silently drops the failed stub from its returned list, so the
orchestrator sees only 4 sections and reports `sections_scraped = 4`. -/
theorem C1_counterexample :
    (runResult ingestRun5).sections_scraped ≠ 5 := by decide

/-- C1 amended: for the 5-stub run where exactly section 3's fetch fails,
ingest reports `sections_scraped = 4` and `sections_stored = 4`; sections
1, 2, 4 and 5 are present in the store and section 3 is absent.  The
failed stub is not tracked: it is dropped by `scrape_all` before the
storage loop and appears in neither count. -/
theorem C1_partial_failure_amended :
    (runResult ingestRun5).sections_scraped = 4 ∧
    (runResult ingestRun5).sections_stored = 4 ∧
    (runDB ingestRun5).committed.map (fun s => s.source_url) =
      ["u1", "u2", "u4", "u5"] := by
  refine ⟨by decide, by decide, by decide⟩

/-- C4 counterexample: a language-creating ingestion run over 3 sections
in which only the first storage iteration raises.  The claim demands that
only that section's uncommitted work be rolled back and that the two
later sections still be stored; in fact the rollback also reverts the
Language row flushed before the loop's first commit, every later section
then fails its `language_id` foreign-key insert, and the run ends with
zero of three sections stored and no Language row. -/
theorem C4_counterexample :
    (runResult ingestRunFk).sections_scraped = 3 ∧
    (runResult ingestRunFk).sections_stored = 0 ∧
    (runDB ingestRunFk).committed = [] ∧
    (runDB ingestRunFk).languages = [] := by
  refine ⟨by decide, by decide, by decide, by decide⟩

/-- C4 amended: per-section failure isolation holds once the language row
is durable — (A) on a session with empty pendings whose language row is
committed, each section commits immediately after it is stored and an
exception discards only that section's work: the final commits are the
prior ones plus the non-failing titled sections in order, and the loop
runs to the end.  The exception the counterexample forces: (B) once the
language row is absent from the session every remaining section fails its
foreign-key insert and nothing further is stored, and (C) an exception
raised before a language-creating run's first commit rolls back the
flushed Language row along with the section, putting the run into regime
(B). -/
theorem C4_section_isolation_amended :
    (∀ (ai : String → Except Unit String) (exn : Nat → Bool) (lid total : Nat)
      (sections : List MergedSection) (idx stored : Nat) (db : DB),
      db.pending = [] → db.pendingLangs = [] →
      lid ∈ db.languages.map (fun l => l.id) →
      storeSections ai exn lid total sections idx stored db =
        ({ db with committed := db.committed ++ storedRows ai exn lid total sections idx },
         stored + (storedRows ai exn lid total sections idx).length)) ∧
    (∀ (ai : String → Except Unit String) (exn : Nat → Bool) (lid total : Nat)
      (sections : List MergedSection) (idx stored : Nat) (db : DB),
      db.pending = [] → db.pendingLangs = [] →
      ¬ lid ∈ db.languages.map (fun l => l.id) →
      storeSections ai exn lid total sections idx stored db = (db, stored)) ∧
    (∀ (ai : String → Except Unit String) (exn : Nat → Bool) (lid total : Nat)
      (sd : MergedSection) (rest : List MergedSection) (idx stored : Nat)
      (db : DB) (t : String),
      sd.title = some t → exn idx = true →
      ¬ lid ∈ db.languages.map (fun l => l.id) →
      storeSections ai exn lid total (sd :: rest) idx stored db =
        (db.rollback, stored)) := by
  refine ⟨fun ai exn lid total => storeSections_durable ai exn lid total,
    fun ai exn lid total => storeSections_dangling ai exn lid total, ?_⟩
  intro ai exn lid total sd rest idx stored db t htitle hexn hlid
  simp only [storeSections, htitle, hexn, if_true]
  exact storeSections_dangling ai exn lid total rest (idx + 1) stored db.rollback
    rfl rfl hlid

/-- C4 witness: the amended theorem applied at concrete inputs — (A) three
sections with an exception at index 1 over a durable language row, (B) the
same sections over an absent language row, and (C) a creating-run state
whose first iteration raises. -/
theorem C4_section_isolation_amended_witness :
    (storeSections aiDown exnAt1 0 3 demoSections3 0 0 dbLang =
      ({ dbLang with
          committed := dbLang.committed ++ storedRows aiDown exnAt1 0 3 demoSections3 0 },
       0 + (storedRows aiDown exnAt1 0 3 demoSections3 0).length)) ∧
    (storeSections aiDown noExn 0 3 demoSections3 0 0 db0 = (db0, 0)) ∧
    (storeSections aiDown exnAt0 0 3
        (demoMerged 1 :: [demoMerged 2, demoMerged 3]) 0 0 dbPend =
      (dbPend.rollback, 0)) :=
  ⟨C4_section_isolation_amended.1 aiDown exnAt1 0 3 demoSections3 0 0 dbLang
      rfl rfl (by decide),
   C4_section_isolation_amended.2.1 aiDown noExn 0 3 demoSections3 0 0 db0
      rfl rfl (by decide),
   C4_section_isolation_amended.2.2 aiDown exnAt0 0 3 (demoMerged 1)
      [demoMerged 2, demoMerged 3] 0 0 dbPend "Section 1" (by decide) (by decide)
      (by decide)⟩

/-- C7: in the 10-section run where every fetch succeeds, exactly the
first 4 sections in original order_index order (positional index below
`total × 0.4`) are stored with `is_quick_path = true`, and all 10 are
stored with `is_deep_path = true`. -/
theorem C7_quick_path :
    (runResult ingestRun10).sections_scraped = 10 ∧
    (runResult ingestRun10).sections_stored = 10 ∧
    (runDB ingestRun10).committed.map (fun s => (s.order_index, s.is_quick_path)) =
      [(1, true), (2, true), (3, true), (4, true), (5, false), (6, false),
       (7, false), (8, false), (9, false), (10, false)] ∧
    (∀ s ∈ (runDB ingestRun10).committed, s.is_deep_path = true) := by
  refine ⟨by decide, by decide, by decide, by decide⟩

/-- C8: calling ingest twice with the same language name never creates a
second Language record.  Starting from a session with no language of that
name and no pending rows, the language table holds at most one record of
that name after the first run and after the second, for every exception
pattern; and whenever the first run did leave the record committed, the
second run resolves it by name and leaves the language table unchanged.
(A first run all of whose sections fail before its first commit leaves no
record — the rollback reverts the flushed Language row — and the second
run then performs the first real creation; no path creates two.) -/
theorem C8_language_idempotent (ai : String → Except Unit String) (exn : Nat → Bool)
    (fetch : String → Option SectionContent) (index : List Stub) (db : DB)
    (name url : String) (db1 db2 : DB) (r1 r2 : IngestResult)
    (hcount : db.languages.countP (fun l => l.name = name) = 0)
    (hfresh : db.pendingLangs = [])
    (h1 : scrape_and_store_language ai exn fetch index db name url = .ok (db1, r1))
    (h2 : scrape_and_store_language ai exn fetch index db1.sessionEnd name url =
      .ok (db2, r2)) :
    db1.languages.countP (fun l => l.name = name) ≤ 1 ∧
    db2.languages.countP (fun l => l.name = name) ≤ 1 ∧
    (db1.languages.countP (fun l => l.name = name) = 1 →
      db2.languages = db1.languages) := by
  have hfindL : db.languages.find? (fun l => l.name = name) = none := by
    rw [List.find?_eq_none]
    intro x hx
    have := List.countP_eq_zero.mp hcount x hx
    simpa using this
  have hcase1 := ingest_lang_cases ai exn fetch index db name url db1 r1 hfresh h1
  have hc1 : db1.languages.countP (fun l => l.name = name) ≤ 1 := by
    rcases hcase1 with hL | ⟨_, l2, hl2, hR⟩
    · rw [hL, hcount]
      omega
    · rw [hR, List.countP_append, hcount, List.countP_cons]
      simp [hl2]
  have hcase2 := ingest_lang_cases ai exn fetch index db1.sessionEnd name url
    db2 r2 rfl h2
  have h3 : db1.languages.countP (fun l => l.name = name) = 1 →
      db2.languages = db1.languages := by
    intro hone
    have hR1 : ∃ l2 : Language, l2.name = name ∧
        db1.languages = db.languages ++ [l2] := by
      rcases hcase1 with hL | ⟨_, l2, hl2, hR⟩
      · rw [hL, hcount] at hone
        exact absurd hone (by simp)
      · exact ⟨l2, hl2, hR⟩
    obtain ⟨l2, hl2, hR⟩ := hR1
    rcases hcase2 with h2L | ⟨hf2, l3, _, h2R⟩
    · exact h2L
    · exfalso
      have hf2a : db1.languages.find? (fun l => l.name = name) = none := hf2
      rw [hR, find?_append_none _ _ hfindL] at hf2a
      simp [List.find?_cons, hl2] at hf2a
  have hc2 : db2.languages.countP (fun l => l.name = name) ≤ 1 := by
    rcases hcase2 with h2L | ⟨hf2, l3, hl3, h2R⟩
    · rw [h2L]
      exact hc1
    · have hz : db1.languages.countP (fun l => l.name = name) = 0 := by
        rw [List.countP_eq_zero]
        intro x hx
        have := List.find?_eq_none.mp hf2 x hx
        simpa using this
      rw [h2R, List.countP_append]
      have hz2 : (db1.sessionEnd.languages.countP fun l => l.name = name) = 0 := hz
      rw [hz2, List.countP_cons]
      simp [hl3]
  exact ⟨hc1, hc2, h3⟩

/-- C8 witness: the theorem applied to two consecutive "Python" ingestion
runs on the initially empty database of the 5-stub scenario. -/
theorem C8_language_idempotent_witness :
    (runDB ingestRun5).languages.countP (fun l => l.name = "Python") ≤ 1 ∧
    (runDB ingestRun5Again).languages.countP (fun l => l.name = "Python") ≤ 1 ∧
    ((runDB ingestRun5).languages.countP (fun l => l.name = "Python") = 1 →
      (runDB ingestRun5Again).languages = (runDB ingestRun5).languages) :=
  C8_language_idempotent aiDown noExn fetchFail3 index5 db0 "Python" tutorialUrl
    (runDB ingestRun5) (runDB ingestRun5Again) (runResult ingestRun5)
    (runResult ingestRun5Again) (by decide) rfl rfl rfl

end DocuLens
